import Mathlib

/-!
# Verification of the Bystronic OPC client core

Shallow embedding of the binary record decoder (`bystronic_opc/client.py`),
the laser-parameter snapshot construction, the client connect/disconnect
state handling, and the per-device monitor loop (`bystronic_opc/monitor.py`).

Byte buffers are `List Nat` (each entry a byte value, `< 256` where a claim
needs it).  Python `None` and `dict.get` defaults are modelled with `Option`;
Python exceptions with `Except String` / explicit outcome types.  `float64`
fields are carried as their 64-bit little-endian bit pattern (the source
performs no arithmetic on them, it only unpacks and stores them).
-/

namespace BystronicOpc

/-- Python slice `l[i:j]` (for `0 ≤ i ≤ j`): clamps at the ends, never errors. -/
def pySlice (l : List Nat) (i j : Nat) : List Nat :=
  (l.drop i).take (j - i)

/-- Little-endian value of a byte list (first byte least significant),
as computed by `struct.unpack` for the `<I`/`<H` codes. -/
def leVal : List Nat → Nat
  | [] => 0
  | b :: rest => b + 256 * leVal rest

/-- Big-endian value of a byte list (first byte most significant); the value
denoted by the hex string `bytes.hex()` produces. -/
def beVal (l : List Nat) : Nat :=
  l.foldl (fun a t => 256 * a + t) 0

/-- `struct.unpack("<I", l)`: exactly 4 bytes or a struct error. -/
def unpackU32 (l : List Nat) : Except String Nat :=
  if l.length = 4 then .ok (leVal l)
  else .error "unpack requires a buffer of 4 bytes"

/-- `struct.unpack("<IHH8s", l)`: exactly 16 bytes, yielding the uint32,
two uint16 and the 8 trailing raw bytes. -/
def unpackIHH8s (l : List Nat) : Except String (Nat × Nat × Nat × List Nat) :=
  if l.length = 16 then
    .ok (leVal (l.take 4), leVal ((l.drop 4).take 2), leVal ((l.drop 6).take 2), l.drop 8)
  else .error "unpack requires a buffer of 16 bytes"

/-- `struct.unpack("<ddd", l)`: exactly 24 bytes; each float64 is kept as its
64-bit little-endian bit pattern. -/
def unpackDDD (l : List Nat) : Except String (Nat × Nat × Nat) :=
  if l.length = 24 then
    .ok (leVal (l.take 8), leVal ((l.drop 8).take 8), leVal ((l.drop 16).take 8))
  else .error "unpack requires a buffer of 24 bytes"

/-- Signed reinterpretation of a 32-bit unsigned value (`<i`). -/
def toI32 (n : Nat) : Int :=
  if n < 2 ^ 31 then (n : Int) else (n : Int) - 2 ^ 32

/-- `struct.unpack("<ii", l)`: exactly 8 bytes, two signed int32. -/
def unpackII (l : List Nat) : Except String (Int × Int) :=
  if l.length = 8 then .ok (toI32 (leVal (l.take 4)), toI32 (leVal (l.drop 4)))
  else .error "unpack requires a buffer of 8 bytes"

/-- `struct.unpack("<i", l)`: exactly 4 bytes, one signed int32. -/
def unpackI32 (l : List Nat) : Except String Int :=
  if l.length = 4 then .ok (toI32 (leVal l))
  else .error "unpack requires a buffer of 4 bytes"

/-- `struct.unpack("<d", l)`: exactly 8 bytes, one float64 bit pattern. -/
def unpackD (l : List Nat) : Except String Nat :=
  if l.length = 8 then .ok (leVal l)
  else .error "unpack requires a buffer of 8 bytes"

/-- Lower-case hex digit character for a value `< 16`. -/
def hexDigitChar (n : Nat) : Char :=
  if n < 10 then Char.ofNat (48 + n) else Char.ofNat (87 + n)

/-- Fixed-width lower-case hex rendering, most significant digit first.
Models Python `f"{x:08x}"` / `f"{x:04x}"` (whose argument is always below
`16 ^ width` at every call site, so the width is exact there). -/
def renderHexFixed : Nat → Nat → List Char
  | 0, _ => []
  | k + 1, n => renderHexFixed k (n / 16) ++ [hexDigitChar (n % 16)]

/-- Python `bytes.hex()`: two lower-case hex digits per byte, in order. -/
def bytesHex (l : List Nat) : List Char :=
  (l.map (renderHexFixed 2)).flatten

/-- Value of a hex digit character (0 for non-hex characters, which never
occur in the canonical strings fed to it). -/
def hexCharVal (c : Char) : Nat :=
  if 48 ≤ c.toNat ∧ c.toNat ≤ 57 then c.toNat - 48
  else if 97 ≤ c.toNat ∧ c.toNat ≤ 102 then c.toNat - 87
  else if 65 ≤ c.toNat ∧ c.toNat ≤ 70 then c.toNat - 55
  else 0

/-- Big-endian value of a hex digit string. -/
def parseHexChars (l : List Char) : Nat :=
  l.foldl (fun a c => 16 * a + hexCharVal c) 0

/-- Python `uuid.UUID(s)` on a canonical hyphenated rendering: strip the
hyphens and read the 32 hex digits as a 128-bit integer; the UUID is
modelled by that integer. -/
def UUID_of (s : String) : Nat :=
  parseHexChars (s.toList.filter (fun c => c != '-'))

/-- The f-string of `_decode_job_info` / `_decode_plan_info`:
`f"{p0:08x}-{p1:04x}-{p2:04x}-{p3.hex()[:4]}-{p3.hex()[4:]}"`. -/
def guidRender : Nat × Nat × Nat × List Nat → String
  | (a, b, c, t) =>
    String.mk (renderHexFixed 8 a ++ '-' :: renderHexFixed 4 b ++ '-' ::
      renderHexFixed 4 c ++ '-' :: (bytesHex t).take 4 ++ '-' :: (bytesHex t).drop 4)

/-- The GUID string the decoder computes from one 16-byte identifier region. -/
def decodeGuidStr (r : List Nat) : String :=
  match unpackIHH8s r with
  | .ok gp => guidRender gp
  | .error _ => ""

/-- The 128-bit UUID value the decoder stores for one 16-byte region. -/
def decodeGuidVal (r : List Nat) : Nat :=
  UUID_of (decodeGuidStr r)

/-- Strict UTF-8 decoding to code points (Python `bytes.decode("utf-8")`):
rejects stray/missing continuation bytes, overlong forms, surrogates and
values above U+10FFFF. -/
def utf8CPs : List Nat → Option (List Nat)
  | [] => some []
  | b :: rest =>
    if b < 128 then (utf8CPs rest).map (fun cps => b :: cps)
    else if 194 ≤ b ∧ b ≤ 223 then
      match rest with
      | c :: rest2 =>
        if 128 ≤ c ∧ c ≤ 191 then
          (utf8CPs rest2).map (fun cps => ((b - 192) * 64 + (c - 128)) :: cps)
        else none
      | [] => none
    else if 224 ≤ b ∧ b ≤ 239 then
      match rest with
      | c1 :: c2 :: rest2 =>
        if (if b = 224 then 160 ≤ c1 ∧ c1 ≤ 191
            else if b = 237 then 128 ≤ c1 ∧ c1 ≤ 159
            else 128 ≤ c1 ∧ c1 ≤ 191) ∧ 128 ≤ c2 ∧ c2 ≤ 191 then
          (utf8CPs rest2).map
            (fun cps => ((b - 224) * 4096 + (c1 - 128) * 64 + (c2 - 128)) :: cps)
        else none
      | _ => none
    else if 240 ≤ b ∧ b ≤ 244 then
      match rest with
      | c1 :: c2 :: c3 :: rest2 =>
        if (if b = 240 then 144 ≤ c1 ∧ c1 ≤ 191
            else if b = 244 then 128 ≤ c1 ∧ c1 ≤ 143
            else 128 ≤ c1 ∧ c1 ≤ 191) ∧ (128 ≤ c2 ∧ c2 ≤ 191) ∧ 128 ≤ c3 ∧ c3 ≤ 191 then
          (utf8CPs rest2).map
            (fun cps => ((b - 240) * 262144 + (c1 - 128) * 4096 + (c2 - 128) * 64 + (c3 - 128)) :: cps)
        else none
      | _ => none
    else none

/-- `bytes.decode("utf-8")`: a string on success, a raised decode error on
malformed input. -/
def pyDecodeUtf8 (l : List Nat) : Except String String :=
  match utf8CPs l with
  | some cps => .ok (String.mk (cps.map Char.ofNat))
  | none => .error "invalid utf-8"

/-- `data_types.JobInfo` (UUID kept as its 128-bit value). -/
structure JobInfo where
  guid : Nat
  name : String
  file_path : String
  created_at : Option Nat := none
  status : Option String := none
deriving DecidableEq

/-- `data_types.PlanInfo` (float64 fields kept as 64-bit LE bit patterns). -/
structure PlanInfo where
  job_guid : Nat
  plan_guid : Nat
  name : String
  size_x : Nat
  size_y : Nat
  material_thickness : Nat
  total_runs : Int
  total_parts : Int
  plan_state : Int
  estimated_cut_time : Nat
  parameter_file : Option String := none
deriving DecidableEq

/-- Decidable equality for decode results, so that concrete decodes can be
checked by `decide`. -/
instance {ε α : Type} [DecidableEq ε] [DecidableEq α] : DecidableEq (Except ε α) := fun a b =>
  match a, b with
  | .ok x, .ok y =>
    if h : x = y then isTrue (by rw [h]) else isFalse (by intro hc; cases hc; exact h rfl)
  | .error x, .error y =>
    if h : x = y then isTrue (by rw [h]) else isFalse (by intro hc; cases hc; exact h rfl)
  | .ok _, .error _ => isFalse (by intro hc; cases hc)
  | .error _, .ok _ => isFalse (by intro hc; cases hc)

namespace BystronicClient

/-- The try-block of `_decode_job_info` on a present body of length ≥ 36:
every struct / UTF-8 error propagates to the except-branch. -/
def decodeJobBody (body : List Nat) : Except String JobInfo :=
  match unpackIHH8s (pySlice body 0 16) with
  | .error e => .error e
  | .ok guid_parts =>
    match unpackU32 (pySlice body 32 36) with
    | .error e => .error e
    | .ok name_length =>
      match pyDecodeUtf8 (pySlice body 36 (36 + name_length)) with
      | .error e => .error e
      | .ok name =>
        match unpackU32 (pySlice body (36 + name_length) (36 + name_length + 4)) with
        | .error e => .error e
        | .ok file_path_length =>
          match pyDecodeUtf8 (pySlice body (36 + name_length + 4)
              (36 + name_length + 4 + file_path_length)) with
          | .error e => .error e
          | .ok file_path =>
            .ok { guid := UUID_of (guidRender guid_parts), name := name,
                  file_path := file_path }

/-- `BystronicClient._decode_job_info`: `None` → `None`; body shorter than
36 bytes → `None`; otherwise decode, wrapping any failure in a `DataError`. -/
def decode_job_info (extension_object : Option (List Nat)) :
    Except String (Option JobInfo) :=
  match extension_object with
  | none => .ok none
  | some body =>
    if body.length < 36 then .ok none
    else
      match decodeJobBody body with
      | .ok j => .ok (some j)
      | .error e => .error ("Failed to decode job info: " ++ e)

/-- The try-block of `_decode_plan_info` on a present body of length ≥ 36. -/
def decodePlanBody (body : List Nat) : Except String PlanInfo :=
  match unpackIHH8s (pySlice body 0 16) with
  | .error e => .error e
  | .ok job_guid_parts =>
    match unpackIHH8s (pySlice body 16 32) with
    | .error e => .error e
    | .ok plan_guid_parts =>
      match unpackU32 (pySlice body 32 36) with
      | .error e => .error e
      | .ok name_length =>
        match pyDecodeUtf8 (pySlice body 36 (36 + name_length)) with
        | .error e => .error e
        | .ok name =>
          match unpackDDD (pySlice body (36 + name_length) (36 + name_length + 24)) with
          | .error e => .error e
          | .ok szs =>
            match unpackII (pySlice body (36 + name_length + 24)
                (36 + name_length + 24 + 8)) with
            | .error e => .error e
            | .ok tots =>
              match unpackI32 (pySlice body (36 + name_length + 32)
                  (36 + name_length + 32 + 4)) with
              | .error e => .error e
              | .ok plan_state =>
                match unpackD (pySlice body (36 + name_length + 36)
                    (36 + name_length + 36 + 8)) with
                | .error e => .error e
                | .ok estimated_cut_time =>
                  .ok { job_guid := UUID_of (guidRender job_guid_parts),
                        plan_guid := UUID_of (guidRender plan_guid_parts),
                        name := name,
                        size_x := szs.1, size_y := szs.2.1,
                        material_thickness := szs.2.2,
                        total_runs := tots.1, total_parts := tots.2,
                        plan_state := plan_state,
                        estimated_cut_time := estimated_cut_time }

/-- `BystronicClient._decode_plan_info`: `None` → `None`; body shorter than
36 bytes → `None`; otherwise decode, wrapping any failure in a `DataError`. -/
def decode_plan_info (extension_object : Option (List Nat)) :
    Except String (Option PlanInfo) :=
  match extension_object with
  | none => .ok none
  | some body =>
    if body.length < 36 then .ok none
    else
      match decodePlanBody body with
      | .ok p => .ok (some p)
      | .error e => .error ("Failed to decode plan info: " ++ e)

end BystronicClient

/-- Structural split of a character list at a separator (Python `str.split`):
`splitOnChar '.' "a.b"` gives the groups `["a", "b"]`. -/
def splitOnChar (sep : Char) : List Char → List (List Char)
  | [] => [[]]
  | c :: rest =>
    match splitOnChar sep rest with
    | g :: gs => if c = sep then [] :: g :: gs else (c :: g) :: gs
    | [] => if c = sep then [[], []] else [[c]]

/-- Python values a laser-parameter read can return: a float or an int. -/
inductive LVal
  | pyFloat (q : Rat)
  | pyInt (n : Int)
deriving DecidableEq

/-- `data_types.LaserParameters`.  The dataclass annotates the fields
`float` / `int`, but Python enforces nothing at runtime, and
`get_laser_parameters` can in fact store `None` (modelled as `none`)
in any of them. -/
structure LaserParameters where
  current_laser_power : Option LVal
  gas_channel : Option LVal
  gas_pressure : Option LVal
  laser_power_deviation : Option LVal
  laser_power_setpoint : Option LVal
  process_operation_mode : Option LVal
deriving DecidableEq

/-- `data_types.MachineStatus` (timestamps as opaque `Nat`). -/
structure MachineStatus where
  machine_url : String
  is_connected : Bool
  current_job : Option JobInfo := none
  laser_parameters : Option LaserParameters := none
  last_update : Option Nat := none
  error_message : Option String := none
deriving DecidableEq

/-- Python exceptions, classified the way the monitor's except-clauses do:
`ConnectionError` versus everything else (`DataError`, any other
`Exception`).  `str(e)` is the carried message. -/
inductive PyExc
  | connErr (msg : String)
  | dataErr (msg : String)
  | otherErr (msg : String)
deriving DecidableEq

/-- Python `str(e)` on an exception constructed with a single message. -/
def excMsg : PyExc → String
  | .connErr m => m
  | .dataErr m => m
  | .otherErr m => m

/-- Outcome of an awaited call into the session/transport collaborator:
a returned value or a raised exception. -/
inductive CallOutcome (α : Type)
  | ok (a : α)
  | raise (e : PyExc)
deriving DecidableEq

namespace BystronicClient

/-- `BystronicClient.LASER_NODES`. -/
def LASER_NODES : List String := [
  "ns=2;s=Laser.CurrentLaserPower",
  "ns=2;s=Laser.GasChannel",
  "ns=2;s=Laser.GasPressure",
  "ns=2;s=Laser.LaserPowerDeviation",
  "ns=2;s=Laser.LaserPowerSetpoint",
  "ns=2;s=Laser.ProcessOperationMode"]

/-- `node_id.split('.')[-1]`. -/
def lastSegment (s : String) : String :=
  String.mk ((splitOnChar '.' s.toList).getLastD [])

/-- Python `dict.get(k, default)` on the `values` dict, whose stored values
are the raw read results (a value, or `None` when the read raised): the
default is used only when the key is absent, not when the stored value is
`None`. -/
def dictGet (d : List (String × Option LVal)) (k : String) (dflt : LVal) : Option LVal :=
  match d.lookup k with
  | some stored => stored
  | none => some dflt

/-- `BystronicClient.get_laser_parameters`.  `reads node_id` is the outcome
of `node.read_value()` for that node (`none` when the read raised); the
loop stores the value on success and `None` on failure, then the snapshot
is built with `values.get(key, zero-default)`.  Total: it always returns a
`LaserParameters`. -/
def get_laser_parameters (reads : String → Option LVal) : LaserParameters :=
  let values : List (String × Option LVal) :=
    LASER_NODES.map (fun node_id => (lastSegment node_id, reads node_id))
  { current_laser_power := dictGet values "CurrentLaserPower" (.pyFloat 0),
    gas_channel := dictGet values "GasChannel" (.pyInt 0),
    gas_pressure := dictGet values "GasPressure" (.pyFloat 0),
    laser_power_deviation := dictGet values "LaserPowerDeviation" (.pyFloat 0),
    laser_power_setpoint := dictGet values "LaserPowerSetpoint" (.pyFloat 0),
    process_operation_mode := dictGet values "ProcessOperationMode" (.pyInt 0) }

/-- Result of `BystronicClient.connect`: the session's `_connected` flag
after the call, and the exception propagated to the caller, if any. -/
structure ConnectResult where
  connected : Bool
  raised : Option PyExc
deriving DecidableEq

/-- `BystronicClient.connect`: on transport success set `_connected = True`;
on any transport exception re-raise as `ConnectionError` with the flag
untouched (the assignment is skipped). -/
def connect (url : String) (connected : Bool) (transport : CallOutcome Unit) : ConnectResult :=
  match transport with
  | .ok _ => { connected := true, raised := none }
  | .raise e =>
    { connected := connected,
      raised := some (.connErr ("Failed to connect to " ++ url ++ ": " ++ excMsg e)) }

/-- Result of `BystronicClient.disconnect`: the flag after the call and
whether the underlying transport disconnect was invoked. -/
structure DisconnectResult where
  connected : Bool
  transport_disconnect_called : Bool
deriving DecidableEq

/-- `BystronicClient.disconnect`: only acts when `_connected` is true. -/
def disconnect (connected : Bool) : DisconnectResult :=
  if connected then { connected := false, transport_disconnect_called := true }
  else { connected := connected, transport_disconnect_called := false }

/-- `BystronicClient.get_machine_status`: builds the status from
`get_current_job` and `get_laser_parameters`; any exception in the
try-block is converted to a `connected=false` status carrying `str(e)`.
`jobResult` is the outcome of `get_current_job` (which may raise). -/
def get_machine_status (url : String) (connected : Bool)
    (jobResult : Except PyExc (Option JobInfo))
    (laserReads : String → Option LVal) (now : Nat) : MachineStatus :=
  match jobResult with
  | .ok current_job =>
    { machine_url := url, is_connected := connected, current_job := current_job,
      laser_parameters := some (get_laser_parameters laserReads),
      last_update := some now }
  | .error e =>
    { machine_url := url, is_connected := false,
      error_message := some (excMsg e), last_update := some now }

end BystronicClient

namespace MachineMonitor

/-- The monitor's configuration constants (`update_interval`,
`retry_attempts`), in seconds. -/
structure MonitorCfg where
  update_interval : Nat
  retry_attempts : Nat
deriving DecidableEq

/-- The placeholder status `MachineMonitor.__init__` stores for every
configured machine before any monitoring starts. -/
def initStatusEntry (url : String) : MachineStatus :=
  { machine_url := url, is_connected := false }

/-- `self._status` as left by `__init__` for a configuration mapping
machine names to URLs: every configured name already has a placeholder
entry. -/
def initTable (machines : List (String × String)) : String → Option MachineStatus :=
  fun name => (machines.lookup name).map initStatusEntry

/-- `MachineMonitor.get_machine_status`: `self._status.get(machine_name)`. -/
def get_machine_status (table : String → Option MachineStatus)
    (machine_name : String) : Option MachineStatus :=
  table machine_name

/-- Observable effect of one iteration of `_monitor_machine`'s while-loop:
the status written to `self._status` (if any), the sleep duration, the
`retry_count` afterwards, and the client's `_connected` flag afterwards. -/
structure IterResult where
  publish : Option MachineStatus
  wait : Nat
  retry_count : Nat
  connected : Bool
deriving DecidableEq

/-- The two except-clauses of `_monitor_machine`: `ConnectionError` drives
the bounded backoff / soft-fail track; any other exception publishes a
degraded status and waits a plain `update_interval`. -/
def handleExc (cfg : MonitorCfg) (url : String) (retry_count : Nat)
    (connected : Bool) (now : Nat) : PyExc → IterResult
  | .connErr msg =>
    let rc := retry_count + 1
    if rc ≤ cfg.retry_attempts then
      { publish := none, wait := min (rc * 10) 60, retry_count := rc,
        connected := connected }
    else
      { publish := some { machine_url := url, is_connected := false,
                          error_message := some msg, last_update := some now },
        wait := cfg.update_interval, retry_count := 0, connected := connected }
  | .dataErr msg =>
    { publish := some { machine_url := url, is_connected := false,
                        error_message := some msg, last_update := some now },
      wait := cfg.update_interval, retry_count := retry_count,
      connected := connected }
  | .otherErr msg =>
    { publish := some { machine_url := url, is_connected := false,
                        error_message := some msg, last_update := some now },
      wait := cfg.update_interval, retry_count := retry_count,
      connected := connected }

/-- One iteration of `_monitor_machine`'s while-loop.  The outcomes of the
client calls (`connect`, `get_machine_status`) are supplied by the
environment; the try-block spans both calls, so either one raising lands
in the same except-clauses. -/
def monitor_machine_step (cfg : MonitorCfg) (url : String) (retry_count : Nat)
    (connected : Bool) (connectOutcome : CallOutcome Unit)
    (probeOutcome : CallOutcome MachineStatus) (now : Nat) : IterResult :=
  match (if connected then CallOutcome.ok () else connectOutcome) with
  | .raise e => handleExc cfg url retry_count connected now e
  | .ok _ =>
    let rc := if connected then retry_count else 0
    match probeOutcome with
    | .ok status =>
      { publish := some status, wait := cfg.update_interval, retry_count := rc,
        connected := true }
    | .raise e => handleExc cfg url rc true now e

/-- The retry/backoff-relevant part of an iteration's effect: what is
published, how long the loop sleeps, and the retry counter afterwards
(everything except the client's own `_connected` flag). -/
def retryHandling (r : IterResult) : Option MachineStatus × Nat × Nat :=
  (r.publish, r.wait, r.retry_count)

/-- A probe outcome is one the real client can produce: any returned
status comes from `BystronicClient.get_machine_status`. -/
def probeFromClient (url : String) (po : CallOutcome MachineStatus) : Prop :=
  ∀ st, po = .ok st →
    ∃ conn jobResult laserReads now,
      st = BystronicClient.get_machine_status url conn jobResult laserReads now

/-- The spec's DeviceStatus invariant: `errorMessage` only with
`connected = false`. -/
def statusInv (s : MachineStatus) : Prop :=
  s.error_message.isSome → s.is_connected = false

end MachineMonitor

/-! ### Concrete buffers used as witnesses / counterexamples -/

/-- A 16-byte identifier region with distinctive raw-byte tail
`11 22 33 44 55 66 77 88`. -/
def regionSplit16 : List Nat :=
  [0, 0, 0, 0, 0, 0, 0, 0, 0x11, 0x22, 0x33, 0x44, 0x55, 0x66, 0x77, 0x88]

/-- An 80-byte well-formed plan buffer: two identifier regions differing in
their first byte, an empty name, and a zeroed numeric tail. -/
def planBuf80 : List Nat :=
  [1] ++ List.replicate 15 0 ++ ([2] ++ List.replicate 15 0) ++
    ([0, 0, 0, 0] ++ List.replicate 44 0)

/-- The record `decode_plan_info` produces from `planBuf80`. -/
def planRec80 : PlanInfo :=
  { job_guid := 2 ^ 96, plan_guid := 2 ^ 97, name := "", size_x := 0, size_y := 0,
    material_thickness := 0, total_runs := 0, total_parts := 0, plan_state := 0,
    estimated_cut_time := 0 }

/-- A 36-byte buffer whose declared name length (5) overruns the buffer. -/
def overrunBuf36 : List Nat := List.replicate 32 0 ++ [5, 0, 0, 0]

/-! ## Theorems -/

/-! ### Helper lemmas about byte values and hex renderings -/

theorem leVal_lt (l : List Nat) (h : ∀ x ∈ l, x < 256) :
    leVal l < 256 ^ l.length := by
  induction l with
  | nil => simp [leVal]
  | cons x xs ih =>
    have hx : x < 256 := h x (List.mem_cons_self x xs)
    have hxs : leVal xs < 256 ^ xs.length :=
      ih (fun y hy => h y (List.mem_cons_of_mem x hy))
    simp only [leVal, List.length_cons, pow_succ]
    calc x + 256 * leVal xs < 256 + 256 * leVal xs := by omega
    _ = 256 * (leVal xs + 1) := by ring
    _ ≤ 256 * 256 ^ xs.length := by
        have : leVal xs + 1 ≤ 256 ^ xs.length := hxs
        exact Nat.mul_le_mul_left 256 this
    _ = 256 ^ xs.length * 256 := by ring

theorem leVal_inj (l1 l2 : List Nat) (hlen : l1.length = l2.length)
    (h1 : ∀ x ∈ l1, x < 256) (h2 : ∀ x ∈ l2, x < 256)
    (h : leVal l1 = leVal l2) : l1 = l2 := by
  induction l1 generalizing l2 with
  | nil =>
    cases l2 with
    | nil => rfl
    | cons y ys => simp at hlen
  | cons x xs ih =>
    cases l2 with
    | nil => simp at hlen
    | cons y ys =>
      have hx : x < 256 := h1 x (List.mem_cons_self x xs)
      have hy : y < 256 := h2 y (List.mem_cons_self y ys)
      simp only [leVal] at h
      have hxy : x = y ∧ leVal xs = leVal ys := by omega
      have hrest : xs = ys := by
        refine ih ys (by simpa using hlen)
          (fun a ha => h1 a (List.mem_cons_of_mem x ha))
          (fun a ha => h2 a (List.mem_cons_of_mem y ha)) hxy.2
      rw [hxy.1, hrest]

theorem beVal_eq_leVal_reverse (l : List Nat) : beVal l = leVal l.reverse := by
  induction l using List.reverseRecOn with
  | nil => rfl
  | append_singleton xs y ih =>
    simp only [beVal, List.foldl_append, List.foldl_cons, List.foldl_nil,
      List.reverse_append, List.reverse_cons, List.reverse_nil, List.nil_append,
      List.singleton_append, leVal]
    simp only [beVal] at ih
    omega

theorem parseHexChars_foldl (a : Nat) (l : List Char) :
    List.foldl (fun a c => 16 * a + hexCharVal c) a l =
      a * 16 ^ l.length + parseHexChars l := by
  induction l generalizing a with
  | nil => simp [parseHexChars]
  | cons c t ih =>
    simp only [parseHexChars, List.foldl_cons, List.length_cons]
    rw [ih (16 * a + hexCharVal c), ih (16 * 0 + hexCharVal c)]
    ring

theorem parseHexChars_append (xs ys : List Char) :
    parseHexChars (xs ++ ys) =
      parseHexChars xs * 16 ^ ys.length + parseHexChars ys := by
  simp only [parseHexChars, List.foldl_append]
  exact parseHexChars_foldl (List.foldl (fun a c => 16 * a + hexCharVal c) 0 xs) ys

theorem hexCharVal_hexDigitChar (n : Nat) (h : n < 16) :
    hexCharVal (hexDigitChar n) = n := by
  interval_cases n <;> decide

theorem renderHexFixed_length (k n : Nat) : (renderHexFixed k n).length = k := by
  induction k generalizing n with
  | zero => rfl
  | succ k ih => simp [renderHexFixed, ih]

theorem renderHexFixed_mem (k n : Nat) (c : Char) (h : c ∈ renderHexFixed k n) :
    ∃ m, m < 16 ∧ c = hexDigitChar m := by
  induction k generalizing n with
  | zero => simp [renderHexFixed] at h
  | succ k ih =>
    simp only [renderHexFixed, List.mem_append, List.mem_singleton] at h
    rcases h with h | h
    · exact ih (n / 16) h
    · exact ⟨n % 16, Nat.mod_lt _ (by norm_num), h⟩

theorem parse_renderHexFixed (k n : Nat) (h : n < 16 ^ k) :
    parseHexChars (renderHexFixed k n) = n := by
  induction k generalizing n with
  | zero =>
    have : n = 0 := by simpa using h
    simp [renderHexFixed, parseHexChars, this]
  | succ k ih =>
    have hdiv : n / 16 < 16 ^ k := by
      rw [Nat.div_lt_iff_lt_mul (by norm_num : 0 < 16)]
      calc n < 16 ^ (k + 1) := h
      _ = 16 ^ k * 16 := by rw [pow_succ]
    rw [renderHexFixed, parseHexChars_append, ih (n / 16) hdiv]
    have hmod : parseHexChars [hexDigitChar (n % 16)] = n % 16 := by
      simp [parseHexChars, hexCharVal_hexDigitChar (n % 16) (Nat.mod_lt _ (by norm_num))]
    rw [hmod]
    simp only [List.length_singleton, pow_one]
    omega

theorem hexDigitChar_ne_dash (m : Nat) (h : m < 16) : hexDigitChar m ≠ '-' := by
  interval_cases m <;> decide

theorem bytesHex_append (xs ys : List Nat) :
    bytesHex (xs ++ ys) = bytesHex xs ++ bytesHex ys := by
  simp [bytesHex]

theorem bytesHex_length (l : List Nat) : (bytesHex l).length = 2 * l.length := by
  induction l with
  | nil => rfl
  | cons x xs ih =>
    simp only [bytesHex, List.map_cons, List.flatten_cons, List.length_append,
      List.length_cons, renderHexFixed_length]
    simp only [bytesHex] at ih
    omega

theorem bytesHex_mem (l : List Nat) (c : Char) (h : c ∈ bytesHex l) :
    ∃ m, m < 16 ∧ c = hexDigitChar m := by
  simp only [bytesHex, List.mem_flatten, List.mem_map] at h
  obtain ⟨cs, ⟨b, _, rfl⟩, hc⟩ := h
  exact renderHexFixed_mem 2 b c hc

theorem beVal_foldl (a : Nat) (l : List Nat) :
    List.foldl (fun a t => 256 * a + t) a l = a * 256 ^ l.length + beVal l := by
  induction l generalizing a with
  | nil => simp [beVal]
  | cons x xs ih =>
    simp only [beVal, List.foldl_cons, List.length_cons]
    rw [ih (256 * a + x), ih (256 * 0 + x)]
    ring

theorem beVal_cons (x : Nat) (xs : List Nat) :
    beVal (x :: xs) = x * 256 ^ xs.length + beVal xs := by
  simp only [beVal, List.foldl_cons]
  have := beVal_foldl (256 * 0 + x) xs
  simpa [beVal] using this

theorem parse_bytesHex (t : List Nat) (hbt : ∀ x ∈ t, x < 256) :
    parseHexChars (bytesHex t) = beVal t := by
  induction t with
  | nil => rfl
  | cons x xs ih =>
    have hx : x < 256 := hbt x (List.mem_cons_self x xs)
    have hxs := ih (fun y hy => hbt y (List.mem_cons_of_mem x hy))
    have hsplit : bytesHex (x :: xs) = renderHexFixed 2 x ++ bytesHex xs := by
      simp [bytesHex]
    rw [hsplit, parseHexChars_append, parse_renderHexFixed 2 x (by norm_num; omega),
      hxs, beVal_cons, bytesHex_length]
    rw [pow_mul]
    norm_num

theorem filter_hex_eq_self (l : List Char)
    (h : ∀ c ∈ l, ∃ m, m < 16 ∧ c = hexDigitChar m) :
    l.filter (fun c => c != '-') = l := by
  rw [List.filter_eq_self]
  intro c hc
  obtain ⟨m, hm, rfl⟩ := h c hc
  simpa using hexDigitChar_ne_dash m hm

theorem UUID_of_guidRender (a b c : Nat) (t : List Nat)
    (ha : a < 2 ^ 32) (hb : b < 2 ^ 16) (hc : c < 2 ^ 16)
    (ht : t.length = 8) (hbt : ∀ x ∈ t, x < 256) :
    UUID_of (guidRender (a, b, c, t)) =
      a * 2 ^ 96 + b * 2 ^ 80 + c * 2 ^ 64 + beVal t := by
  have htp : (bytesHex t).take 4 ++ '-' :: (bytesHex t).drop 4 =
      (bytesHex t).take 4 ++ ([ '-' ] ++ (bytesHex t).drop 4) := by simp
  have hmemhex : ∀ ch ∈ bytesHex t, ∃ m, m < 16 ∧ ch = hexDigitChar m :=
    fun ch hch => bytesHex_mem t ch hch
  have hfil : (guidRender (a, b, c, t)).toList.filter (fun ch => ch != '-') =
      renderHexFixed 8 a ++ (renderHexFixed 4 b ++ (renderHexFixed 4 c ++ bytesHex t)) := by
    show (renderHexFixed 8 a ++ '-' :: renderHexFixed 4 b ++ '-' ::
      renderHexFixed 4 c ++ '-' :: (bytesHex t).take 4 ++ '-' ::
      (bytesHex t).drop 4).filter (fun ch => ch != '-') = _
    simp only [List.filter_append, List.filter_cons]
    rw [filter_hex_eq_self _ (fun ch hch => renderHexFixed_mem 8 a ch hch),
      filter_hex_eq_self _ (fun ch hch => renderHexFixed_mem 4 b ch hch),
      filter_hex_eq_self _ (fun ch hch => renderHexFixed_mem 4 c ch hch),
      filter_hex_eq_self _ (fun ch hch =>
        hmemhex ch (List.take_subset 4 (bytesHex t) hch)),
      filter_hex_eq_self _ (fun ch hch =>
        hmemhex ch (List.drop_subset 4 (bytesHex t) hch))]
    simp [List.take_append_drop]
  rw [UUID_of, hfil]
  rw [parseHexChars_append, parseHexChars_append, parseHexChars_append]
  rw [parse_renderHexFixed 8 a (by norm_num at ha ⊢; omega),
    parse_renderHexFixed 4 b (by norm_num at hb ⊢; omega),
    parse_renderHexFixed 4 c (by norm_num at hc ⊢; omega),
    parse_bytesHex t hbt]
  simp only [List.length_append, renderHexFixed_length, bytesHex_length, ht]
  norm_num
  ring

theorem decodeGuidVal_eq (r : List Nat) (hr : r.length = 16)
    (hb : ∀ x ∈ r, x < 256) :
    decodeGuidVal r =
      leVal (r.take 4) * 2 ^ 96 + leVal ((r.drop 4).take 2) * 2 ^ 80 +
      leVal ((r.drop 6).take 2) * 2 ^ 64 + beVal (r.drop 8) := by
  have hu : unpackIHH8s r =
      .ok (leVal (r.take 4), leVal ((r.drop 4).take 2),
           leVal ((r.drop 6).take 2), r.drop 8) := by
    simp [unpackIHH8s, hr]
  rw [decodeGuidVal, decodeGuidStr, hu]
  have h4 : (r.take 4).length = 4 := by simp [List.length_take, hr]
  have h42 : ((r.drop 4).take 2).length = 2 := by
    simp [List.length_take, List.length_drop, hr]
  have h62 : ((r.drop 6).take 2).length = 2 := by
    simp [List.length_take, List.length_drop, hr]
  have h8 : (r.drop 8).length = 8 := by simp [List.length_drop, hr]
  have hba : leVal (r.take 4) < 2 ^ 32 := by
    have := leVal_lt (r.take 4) (fun x hx => hb x (List.take_subset 4 r hx))
    rw [h4] at this
    norm_num at this ⊢
    omega
  have hbb : leVal ((r.drop 4).take 2) < 2 ^ 16 := by
    have := leVal_lt ((r.drop 4).take 2)
      (fun x hx => hb x (List.drop_subset 4 r (List.take_subset 2 (r.drop 4) hx)))
    rw [h42] at this
    norm_num at this ⊢
    omega
  have hbc : leVal ((r.drop 6).take 2) < 2 ^ 16 := by
    have := leVal_lt ((r.drop 6).take 2)
      (fun x hx => hb x (List.drop_subset 6 r (List.take_subset 2 (r.drop 6) hx)))
    rw [h62] at this
    norm_num at this ⊢
    omega
  exact UUID_of_guidRender _ _ _ _ hba hbb hbc h8
    (fun x hx => hb x (List.drop_subset 8 r hx))

theorem list_decomp_4_2_2_8 (l : List Nat) :
    l = l.take 4 ++ ((l.drop 4).take 2 ++ ((l.drop 6).take 2 ++ l.drop 8)) := by
  have h1 : (l.drop 4).drop 2 = l.drop 6 := by
    rw [List.drop_drop]
  have h2 : (l.drop 6).drop 2 = l.drop 8 := by
    rw [List.drop_drop]
  conv_lhs => rw [← List.take_append_drop 4 l]
  congr 1
  conv_lhs => rw [← List.take_append_drop 2 (l.drop 4)]
  rw [h1]
  congr 1
  conv_lhs => rw [← List.take_append_drop 2 (l.drop 6)]
  rw [h2]

theorem decodeGuidVal_inj (r1 r2 : List Nat) (h1 : r1.length = 16)
    (h2 : r2.length = 16) (hb1 : ∀ x ∈ r1, x < 256) (hb2 : ∀ x ∈ r2, x < 256)
    (h : decodeGuidVal r1 = decodeGuidVal r2) : r1 = r2 := by
  rw [decodeGuidVal_eq r1 h1 hb1, decodeGuidVal_eq r2 h2 hb2] at h
  have hlen4 : (r1.take 4).length = (r2.take 4).length := by
    simp [List.length_take, h1, h2]
  have hlen42 : ((r1.drop 4).take 2).length = ((r2.drop 4).take 2).length := by
    simp [List.length_take, List.length_drop, h1, h2]
  have hlen62 : ((r1.drop 6).take 2).length = ((r2.drop 6).take 2).length := by
    simp [List.length_take, List.length_drop, h1, h2]
  have hlen8 : (r1.drop 8).length = (r2.drop 8).length := by
    simp [List.length_drop, h1, h2]
  have hb14 : ∀ x ∈ r1.take 4, x < 256 := fun x hx => hb1 x (List.take_subset 4 r1 hx)
  have hb24 : ∀ x ∈ r2.take 4, x < 256 := fun x hx => hb2 x (List.take_subset 4 r2 hx)
  have hb142 : ∀ x ∈ (r1.drop 4).take 2, x < 256 :=
    fun x hx => hb1 x (List.drop_subset 4 r1 (List.take_subset 2 (r1.drop 4) hx))
  have hb242 : ∀ x ∈ (r2.drop 4).take 2, x < 256 :=
    fun x hx => hb2 x (List.drop_subset 4 r2 (List.take_subset 2 (r2.drop 4) hx))
  have hb162 : ∀ x ∈ (r1.drop 6).take 2, x < 256 :=
    fun x hx => hb1 x (List.drop_subset 6 r1 (List.take_subset 2 (r1.drop 6) hx))
  have hb262 : ∀ x ∈ (r2.drop 6).take 2, x < 256 :=
    fun x hx => hb2 x (List.drop_subset 6 r2 (List.take_subset 2 (r2.drop 6) hx))
  have hb18 : ∀ x ∈ r1.drop 8, x < 256 := fun x hx => hb1 x (List.drop_subset 8 r1 hx)
  have hb28 : ∀ x ∈ r2.drop 8, x < 256 := fun x hx => hb2 x (List.drop_subset 8 r2 hx)
  have hA1 : leVal (r1.take 4) < 2 ^ 32 := by
    have := leVal_lt _ hb14
    rw [show (r1.take 4).length = 4 by simp [List.length_take, h1]] at this
    norm_num at this ⊢
    omega
  have hA2 : leVal (r2.take 4) < 2 ^ 32 := by
    have := leVal_lt _ hb24
    rw [show (r2.take 4).length = 4 by simp [List.length_take, h2]] at this
    norm_num at this ⊢
    omega
  have hB1 : leVal ((r1.drop 4).take 2) < 2 ^ 16 := by
    have := leVal_lt _ hb142
    rw [show ((r1.drop 4).take 2).length = 2 by
      simp [List.length_take, List.length_drop, h1]] at this
    norm_num at this ⊢
    omega
  have hB2 : leVal ((r2.drop 4).take 2) < 2 ^ 16 := by
    have := leVal_lt _ hb242
    rw [show ((r2.drop 4).take 2).length = 2 by
      simp [List.length_take, List.length_drop, h2]] at this
    norm_num at this ⊢
    omega
  have hC1 : leVal ((r1.drop 6).take 2) < 2 ^ 16 := by
    have := leVal_lt _ hb162
    rw [show ((r1.drop 6).take 2).length = 2 by
      simp [List.length_take, List.length_drop, h1]] at this
    norm_num at this ⊢
    omega
  have hC2 : leVal ((r2.drop 6).take 2) < 2 ^ 16 := by
    have := leVal_lt _ hb262
    rw [show ((r2.drop 6).take 2).length = 2 by
      simp [List.length_take, List.length_drop, h2]] at this
    norm_num at this ⊢
    omega
  have hT1 : beVal (r1.drop 8) < 2 ^ 64 := by
    rw [beVal_eq_leVal_reverse]
    have := leVal_lt (r1.drop 8).reverse
      (fun x hx => hb18 x (List.mem_reverse.mp hx))
    rw [List.length_reverse, show (r1.drop 8).length = 8 by
      simp [List.length_drop, h1]] at this
    norm_num at this ⊢
    omega
  have hT2 : beVal (r2.drop 8) < 2 ^ 64 := by
    rw [beVal_eq_leVal_reverse]
    have := leVal_lt (r2.drop 8).reverse
      (fun x hx => hb28 x (List.mem_reverse.mp hx))
    rw [List.length_reverse, show (r2.drop 8).length = 8 by
      simp [List.length_drop, h2]] at this
    norm_num at this ⊢
    omega
  have hcomp : leVal (r1.take 4) = leVal (r2.take 4) ∧
      leVal ((r1.drop 4).take 2) = leVal ((r2.drop 4).take 2) ∧
      leVal ((r1.drop 6).take 2) = leVal ((r2.drop 6).take 2) ∧
      beVal (r1.drop 8) = beVal (r2.drop 8) := by
    norm_num at h hA1 hA2 hB1 hB2 hC1 hC2 hT1 hT2
    omega
  have e1 : r1.take 4 = r2.take 4 := leVal_inj _ _ hlen4 hb14 hb24 hcomp.1
  have e2 : (r1.drop 4).take 2 = (r2.drop 4).take 2 :=
    leVal_inj _ _ hlen42 hb142 hb242 hcomp.2.1
  have e3 : (r1.drop 6).take 2 = (r2.drop 6).take 2 :=
    leVal_inj _ _ hlen62 hb162 hb262 hcomp.2.2.1
  have e4 : r1.drop 8 = r2.drop 8 := by
    have hrev : (r1.drop 8).reverse = (r2.drop 8).reverse := by
      refine leVal_inj _ _ (by simp [List.length_reverse, hlen8])
        (fun x hx => hb18 x (List.mem_reverse.mp hx))
        (fun x hx => hb28 x (List.mem_reverse.mp hx)) ?_
      rw [← beVal_eq_leVal_reverse, ← beVal_eq_leVal_reverse]
      exact hcomp.2.2.2
    exact List.reverse_injective hrev
  rw [list_decomp_4_2_2_8 r1, list_decomp_4_2_2_8 r2, e1, e2, e3, e4]

/-- C6: `decode_job_info` and `decode_plan_info` applied to an absent input
return absent, and applied to any buffer strictly shorter than 36 bytes also
return absent — in both cases without raising a decode failure. -/
theorem decode_absent_and_short_is_absent :
    (BystronicClient.decode_job_info none = .ok none ∧
     BystronicClient.decode_plan_info none = .ok none) ∧
    ∀ body : List Nat, body.length < 36 →
      BystronicClient.decode_job_info (some body) = .ok none ∧
      BystronicClient.decode_plan_info (some body) = .ok none := by
  refine ⟨⟨rfl, rfl⟩, fun body h => ⟨?_, ?_⟩⟩
  · simp [BystronicClient.decode_job_info, if_pos h]
  · simp [BystronicClient.decode_plan_info, if_pos h]

/-- Witness for C6 at a concrete 10-byte buffer. -/
theorem decode_absent_and_short_is_absent_witness :
    BystronicClient.decode_job_info (some (List.replicate 10 0)) = .ok none ∧
    BystronicClient.decode_plan_info (some (List.replicate 10 0)) = .ok none :=
  decode_absent_and_short_is_absent.2 (List.replicate 10 0) (by decide)

/-- C10: if the transport connect fails on a disconnected session,
`connect` raises a `ConnectionError` and leaves the `_connected` flag false;
`disconnect` on a disconnected session is a no-op that never invokes the
transport disconnect. -/
theorem connect_failure_and_disconnect_noop (url : String) (e : PyExc) :
    (BystronicClient.connect url false (.raise e)).connected = false ∧
    (∃ m, (BystronicClient.connect url false (.raise e)).raised =
      some (.connErr m)) ∧
    (BystronicClient.disconnect false).transport_disconnect_called = false ∧
    (BystronicClient.disconnect false).connected = false :=
  ⟨rfl, ⟨_, rfl⟩, rfl, rfl⟩

/-- C1 evidence: with all six reads failing, `get_laser_parameters` returns
a snapshot whose every field is Python `None` — not the zero values the
spec promises (the dict stores `None` under each key, so `values.get`'s
`0.0` / `0` defaults never apply). -/
theorem laser_failed_reads_yield_none :
    BystronicClient.get_laser_parameters (fun _ => none) =
      { current_laser_power := none, gas_channel := none, gas_pressure := none,
        laser_power_deviation := none, laser_power_setpoint := none,
        process_operation_mode := none } ∧
    (none : Option LVal) ≠ some (.pyFloat 0) ∧
    (none : Option LVal) ≠ some (.pyInt 0) := by
  refine ⟨by decide, by decide, by decide⟩

/-- C2: an iteration in the polling state (session connected) whose probe
raises a connection-class error is handled identically — same publish, same
wait, same resulting retry counter — to an iteration whose connect call
raises that error, and it takes the retry/soft-fail track (the counter is
incremented, or reset after exceeding the budget), not the degraded track. -/
theorem probe_conn_error_shares_retry_track (cfg : MachineMonitor.MonitorCfg)
    (url msg : String) (rc now : Nat) (co : CallOutcome Unit)
    (po : CallOutcome MachineStatus) :
    MachineMonitor.retryHandling
        (MachineMonitor.monitor_machine_step cfg url rc true co
          (.raise (.connErr msg)) now) =
      MachineMonitor.retryHandling
        (MachineMonitor.monitor_machine_step cfg url rc false
          (.raise (.connErr msg)) po now) ∧
    (MachineMonitor.monitor_machine_step cfg url rc true co
        (.raise (.connErr msg)) now).retry_count =
      (if rc + 1 ≤ cfg.retry_attempts then rc + 1 else 0) := by
  have h1 : MachineMonitor.monitor_machine_step cfg url rc true co
      (.raise (.connErr msg)) now =
      MachineMonitor.handleExc cfg url rc true now (.connErr msg) := rfl
  have h2 : MachineMonitor.monitor_machine_step cfg url rc false
      (.raise (.connErr msg)) po now =
      MachineMonitor.handleExc cfg url rc false now (.connErr msg) := rfl
  rw [h1, h2]
  by_cases h : rc + 1 ≤ cfg.retry_attempts <;>
    simp [MachineMonitor.handleExc, MachineMonitor.retryHandling, h]

/-- C3: with `retry_attempts = 3`, three consecutive connection failures
wait 10s, 20s, 30s (publishing nothing), and the fourth consecutive failure
publishes a `connected=false` status carrying the error text, waits exactly
`update_interval`, and resets the retry counter to 0. -/
theorem backoff_schedule_three_attempts (u : Nat) (url msg : String)
    (n1 n2 n3 n4 : Nat) :
    let cfg : MachineMonitor.MonitorCfg :=
      { update_interval := u, retry_attempts := 3 }
    let fail : CallOutcome Unit := .raise (.connErr msg)
    let failP : CallOutcome MachineStatus := .raise (.connErr msg)
    let r1 := MachineMonitor.monitor_machine_step cfg url 0 false fail failP n1
    let r2 := MachineMonitor.monitor_machine_step cfg url r1.retry_count false fail failP n2
    let r3 := MachineMonitor.monitor_machine_step cfg url r2.retry_count false fail failP n3
    let r4 := MachineMonitor.monitor_machine_step cfg url r3.retry_count false fail failP n4
    r1.wait = 10 ∧ r1.publish = none ∧ r1.retry_count = 1 ∧
    r2.wait = 20 ∧ r2.publish = none ∧ r2.retry_count = 2 ∧
    r3.wait = 30 ∧ r3.publish = none ∧ r3.retry_count = 3 ∧
    r4.wait = u ∧
    r4.publish = some ⟨url, false, none, none, some n4, some msg⟩ ∧
    r4.retry_count = 0 := by
  simp [MachineMonitor.monitor_machine_step, MachineMonitor.handleExc]

/-- C4 counterexample: immediately after construction — before any status
publication — `statusOf` on a configured machine name is already a
`DeviceStatus` value, not absent. -/
theorem statusOf_initial_not_absent :
    MachineMonitor.get_machine_status
      (MachineMonitor.initTable [("m1", "u1")]) "m1" ≠ none := by
  decide

/-- C4 amended: before the first status publication, `statusOf` on a
configured name returns the `__init__` placeholder (`connected=false`, no
error, no job); it is absent only for names outside the configuration. -/
theorem statusOf_before_first_publish (machines : List (String × String))
    (name : String) :
    (∀ url, machines.lookup name = some url →
      MachineMonitor.get_machine_status (MachineMonitor.initTable machines) name =
        some (MachineMonitor.initStatusEntry url)) ∧
    (machines.lookup name = none →
      MachineMonitor.get_machine_status (MachineMonitor.initTable machines) name =
        none) := by
  constructor
  · intro url h
    simp [MachineMonitor.get_machine_status, MachineMonitor.initTable, h]
  · intro h
    simp [MachineMonitor.get_machine_status, MachineMonitor.initTable, h]

/-- Witness for the amended C4 at a concrete one-machine configuration. -/
theorem statusOf_before_first_publish_witness :
    MachineMonitor.get_machine_status
        (MachineMonitor.initTable [("m1", "u1")]) "m1" =
      some (MachineMonitor.initStatusEntry "u1") :=
  (statusOf_before_first_publish [("m1", "u1")] "m1").1 "u1" (by decide)

/-- C9: every status value the monitor can store — the `__init__`
placeholder and every status a loop iteration publishes (polling-cycle,
degraded and soft-fail publishes, with polling statuses produced by the
client's `get_machine_status`) — sets `error_message` only together with
`is_connected = false`. -/
theorem status_error_implies_disconnected :
    (∀ url, MachineMonitor.statusInv (MachineMonitor.initStatusEntry url)) ∧
    (∀ cfg url rc conn co po now s,
      MachineMonitor.probeFromClient url po →
      (MachineMonitor.monitor_machine_step cfg url rc conn co po now).publish =
        some s →
      MachineMonitor.statusInv s) := by
  constructor
  · intro url _
    rfl
  · intro cfg url rc conn co po now s hp hpub
    have hclient : ∀ (conn2 : Bool) (jr : Except PyExc (Option JobInfo))
        (lr : String → Option LVal) (n2 : Nat),
        MachineMonitor.statusInv
          (BystronicClient.get_machine_status url conn2 jr lr n2) := by
      intro conn2 jr lr n2
      cases jr with
      | ok j =>
        intro habs
        have h2 : (none : Option String).isSome = true := habs
        simp at h2
      | error e =>
        intro _
        rfl
    have hgen : ∀ (rc2 : Nat) (conn2 : Bool) (e : PyExc),
        (MachineMonitor.handleExc cfg url rc2 conn2 now e).publish = some s →
        MachineMonitor.statusInv s := by
      intro rc2 conn2 e hpub2
      cases e with
      | connErr m =>
        by_cases hle : rc2 + 1 ≤ cfg.retry_attempts
        · simp [MachineMonitor.handleExc, hle] at hpub2
        · simp [MachineMonitor.handleExc, hle] at hpub2
          rw [← hpub2]
          intro _
          rfl
      | dataErr m =>
        simp [MachineMonitor.handleExc] at hpub2
        rw [← hpub2]
        intro _
        rfl
      | otherErr m =>
        simp [MachineMonitor.handleExc] at hpub2
        rw [← hpub2]
        intro _
        rfl
    cases conn
    · cases co with
      | ok a =>
        cases a
        cases po with
        | ok st =>
          have hpub2 : some st = some s := hpub
          obtain ⟨c2, jr, lr, n2, hst⟩ := hp st rfl
          injection hpub2 with h
          rw [← h, hst]
          exact hclient c2 jr lr n2
        | raise e =>
          exact hgen 0 true e hpub
      | raise e =>
        exact hgen rc false e hpub
    · cases po with
      | ok st =>
        have hpub2 : some st = some s := hpub
        obtain ⟨c2, jr, lr, n2, hst⟩ := hp st rfl
        injection hpub2 with h
        rw [← h, hst]
        exact hclient c2 jr lr n2
      | raise e =>
        exact hgen rc true e hpub

/-- Witness for C9: a concrete polling-cycle publish satisfies the
invariant. -/
theorem status_error_implies_disconnected_witness :
    MachineMonitor.statusInv
      (BystronicClient.get_machine_status "u" true (.ok none) (fun _ => none) 5) :=
  status_error_implies_disconnected.2
    { update_interval := 30, retry_attempts := 3 } "u" 0 true (.ok ())
    (.ok (BystronicClient.get_machine_status "u" true (.ok none) (fun _ => none) 5)) 7
    (BystronicClient.get_machine_status "u" true (.ok none) (fun _ => none) 5)
    (fun st h => ⟨true, .ok none, (fun _ => none), 5, by injection h with h; rw [h]⟩)
    rfl

/-- C5: for a present buffer of length ≥ 36 whose declared name length `L`
satisfies `36 + L >` buffer length, both decoders raise a decode failure
carrying the underlying cause — they never return a record, never return
absent, and (being total functions of the clamping slice model) never crash
with an out-of-range access. -/
theorem name_overrun_raises_decode_failure (body : List Nat) (L : Nat)
    (h36 : 36 ≤ body.length)
    (hL : unpackU32 (pySlice body 32 36) = .ok L)
    (hov : body.length < 36 + L) :
    (∃ e, BystronicClient.decode_job_info (some body) =
      .error ("Failed to decode job info: " ++ e)) ∧
    (∃ e, BystronicClient.decode_plan_info (some body) =
      .error ("Failed to decode plan info: " ++ e)) := by
  have hlen : ¬ body.length < 36 := by omega
  have hs1 : (pySlice body 0 16).length = 16 := by
    simp only [pySlice, List.length_take, List.length_drop]
    omega
  have hs2 : (pySlice body 16 32).length = 16 := by
    simp only [pySlice, List.length_take, List.length_drop]
    omega
  have hnil : body.drop (36 + L) = [] := List.drop_eq_nil_of_le (by omega)
  have hsliceJob : pySlice body (36 + L) (36 + L + 4) = [] := by
    simp [pySlice, hnil]
  have hslicePlan : pySlice body (36 + L) (36 + L + 24) = [] := by
    simp [pySlice, hnil]
  obtain ⟨gp1, hgp1⟩ : ∃ gp, unpackIHH8s (pySlice body 0 16) = .ok gp := by
    simp [unpackIHH8s, hs1]
  obtain ⟨gp2, hgp2⟩ : ∃ gp, unpackIHH8s (pySlice body 16 32) = .ok gp := by
    simp [unpackIHH8s, hs2]
  have hue : unpackU32 (pySlice body (36 + L) (36 + L + 4)) =
      .error "unpack requires a buffer of 4 bytes" := by
    rw [hsliceJob]
    rfl
  have hde : unpackDDD (pySlice body (36 + L) (36 + L + 24)) =
      .error "unpack requires a buffer of 24 bytes" := by
    rw [hslicePlan]
    rfl
  constructor
  · rcases hname : pyDecodeUtf8 (pySlice body 36 (36 + L)) with e | name
    · exact ⟨e, by
        simp [BystronicClient.decode_job_info, hlen, BystronicClient.decodeJobBody,
          hgp1, hL, hname]⟩
    · refine ⟨"unpack requires a buffer of 4 bytes", ?_⟩
      simp [BystronicClient.decode_job_info, hlen, BystronicClient.decodeJobBody,
        hgp1, hL, hname, hue]
  · rcases hname : pyDecodeUtf8 (pySlice body 36 (36 + L)) with e | name
    · exact ⟨e, by
        simp [BystronicClient.decode_plan_info, hlen, BystronicClient.decodePlanBody,
          hgp1, hgp2, hL, hname]⟩
    · refine ⟨"unpack requires a buffer of 24 bytes", ?_⟩
      simp [BystronicClient.decode_plan_info, hlen, BystronicClient.decodePlanBody,
        hgp1, hgp2, hL, hname, hde]

/-- Witness for C5 at the concrete 36-byte buffer with declared name
length 5. -/
theorem name_overrun_raises_decode_failure_witness :
    (36 ≤ overrunBuf36.length ∧ unpackU32 (pySlice overrunBuf36 32 36) = .ok 5 ∧
      overrunBuf36.length < 36 + 5) ∧
    ((∃ e, BystronicClient.decode_job_info (some overrunBuf36) =
      .error ("Failed to decode job info: " ++ e)) ∧
    (∃ e, BystronicClient.decode_plan_info (some overrunBuf36) =
      .error ("Failed to decode plan info: " ++ e))) :=
  ⟨⟨by decide, by decide, by decide⟩,
    name_overrun_raises_decode_failure overrunBuf36 5 (by decide) (by decide)
      (by decide)⟩

/-- C7: a successful `decode_plan_info` stores as `job_guid` the identifier
decoded from bytes 0–15 and as `plan_guid` the identifier decoded from
bytes 16–31 (not byte 32), and whenever those two 16-byte regions differ,
the two decoded GUIDs differ. -/
theorem plan_guid_offsets_and_distinct (body : List Nat) (p : PlanInfo)
    (hb : ∀ x ∈ body, x < 256)
    (h : BystronicClient.decode_plan_info (some body) = .ok (some p)) :
    p.job_guid = decodeGuidVal (pySlice body 0 16) ∧
    p.plan_guid = decodeGuidVal (pySlice body 16 32) ∧
    (pySlice body 0 16 ≠ pySlice body 16 32 → p.job_guid ≠ p.plan_guid) := by
  have hlen : ¬ body.length < 36 := by
    intro hc
    simp [BystronicClient.decode_plan_info, hc] at h
  have h36 : 36 ≤ body.length := by omega
  have hs1 : (pySlice body 0 16).length = 16 := by
    simp only [pySlice, List.length_take, List.length_drop]
    omega
  have hs2 : (pySlice body 16 32).length = 16 := by
    simp only [pySlice, List.length_take, List.length_drop]
    omega
  have hb1 : ∀ x ∈ pySlice body 0 16, x < 256 := by
    intro x hx
    exact hb x (List.drop_subset 0 body (List.take_subset 16 (body.drop 0) hx))
  have hb2 : ∀ x ∈ pySlice body 16 32, x < 256 := by
    intro x hx
    exact hb x (List.drop_subset 16 body (List.take_subset 16 (body.drop 16) hx))
  obtain ⟨gp1, hgp1⟩ : ∃ gp, unpackIHH8s (pySlice body 0 16) = .ok gp := by
    simp [unpackIHH8s, hs1]
  obtain ⟨gp2, hgp2⟩ : ∃ gp, unpackIHH8s (pySlice body 16 32) = .ok gp := by
    simp [unpackIHH8s, hs2]
  rcases h3 : unpackU32 (pySlice body 32 36) with e3 | L
  · have hd : BystronicClient.decodePlanBody body = .error e3 := by
      simp [BystronicClient.decodePlanBody, hgp1, hgp2, h3]
    simp [BystronicClient.decode_plan_info, hlen, hd] at h
  rcases h4 : pyDecodeUtf8 (pySlice body 36 (36 + L)) with e4 | name
  · have hd : BystronicClient.decodePlanBody body = .error e4 := by
      simp [BystronicClient.decodePlanBody, hgp1, hgp2, h3, h4]
    simp [BystronicClient.decode_plan_info, hlen, hd] at h
  rcases h5 : unpackDDD (pySlice body (36 + L) (36 + L + 24)) with e5 | szs
  · have hd : BystronicClient.decodePlanBody body = .error e5 := by
      simp [BystronicClient.decodePlanBody, hgp1, hgp2, h3, h4, h5]
    simp [BystronicClient.decode_plan_info, hlen, hd] at h
  rcases h6 : unpackII (pySlice body (36 + L + 24) (36 + L + 24 + 8)) with e6 | tots
  · have hd : BystronicClient.decodePlanBody body = .error e6 := by
      simp [BystronicClient.decodePlanBody, hgp1, hgp2, h3, h4, h5, h6]
    simp [BystronicClient.decode_plan_info, hlen, hd] at h
  rcases h7 : unpackI32 (pySlice body (36 + L + 32) (36 + L + 32 + 4)) with e7 | ps
  · have hd : BystronicClient.decodePlanBody body = .error e7 := by
      simp [BystronicClient.decodePlanBody, hgp1, hgp2, h3, h4, h5, h6, h7]
    simp [BystronicClient.decode_plan_info, hlen, hd] at h
  rcases h8 : unpackD (pySlice body (36 + L + 36) (36 + L + 36 + 8)) with e8 | ect
  · have hd : BystronicClient.decodePlanBody body = .error e8 := by
      simp [BystronicClient.decodePlanBody, hgp1, hgp2, h3, h4, h5, h6, h7, h8]
    simp [BystronicClient.decode_plan_info, hlen, hd] at h
  have hrec : BystronicClient.decodePlanBody body =
      .ok { job_guid := UUID_of (guidRender gp1),
            plan_guid := UUID_of (guidRender gp2), name := name,
            size_x := szs.1, size_y := szs.2.1, material_thickness := szs.2.2,
            total_runs := tots.1, total_parts := tots.2, plan_state := ps,
            estimated_cut_time := ect } := by
    simp [BystronicClient.decodePlanBody, hgp1, hgp2, h3, h4, h5, h6, h7, h8]
  have hp : ({ job_guid := UUID_of (guidRender gp1),
               plan_guid := UUID_of (guidRender gp2), name := name,
               size_x := szs.1, size_y := szs.2.1,
               material_thickness := szs.2.2, total_runs := tots.1,
               total_parts := tots.2, plan_state := ps,
               estimated_cut_time := ect } : PlanInfo) = p := by
    simpa [BystronicClient.decode_plan_info, hlen, hrec] using h
  have hjob2 : p.job_guid = decodeGuidVal (pySlice body 0 16) := by
    rw [← hp, decodeGuidVal, decodeGuidStr, hgp1]
  have hplan2 : p.plan_guid = decodeGuidVal (pySlice body 16 32) := by
    rw [← hp, decodeGuidVal, decodeGuidStr, hgp2]
  refine ⟨hjob2, hplan2, ?_⟩
  intro hne hguid
  exact hne (decodeGuidVal_inj _ _ hs1 hs2 hb1 hb2
    (by rw [← hjob2, ← hplan2, hguid]))

/-- Witness for C7 at the concrete 80-byte plan buffer whose identifier
regions differ. -/
theorem plan_guid_offsets_and_distinct_witness :
    ((∀ x ∈ planBuf80, x < 256) ∧
      BystronicClient.decode_plan_info (some planBuf80) = .ok (some planRec80)) ∧
    planRec80.job_guid ≠ planRec80.plan_guid :=
  ⟨⟨by decide, by decide⟩,
    (plan_guid_offsets_and_distinct planBuf80 planRec80 (by decide) (by decide)).2.2
      (by decide)⟩

/-- C8 counterexample: at `regionSplit16` (raw bytes `11 22 … 88`), the
fourth hyphen group of the rendered GUID is `"1122"`, the hex encoding of
the first TWO raw bytes — not the hex encoding of the first four raw bytes
(`"11223344"`) as the claim states. -/
theorem fourth_group_not_first_four_bytes :
    String.mk ((splitOnChar '-' (decodeGuidStr regionSplit16).toList).getD 3 []) =
      "1122" ∧
    String.mk (bytesHex ((regionSplit16.drop 8).take 4)) = "11223344" ∧
    ("1122" : String) ≠ "11223344" :=
  ⟨by decide, by decide, by decide⟩

/-- C8 amended: the decoder unpacks a 16-byte region little-endian as
`{uint32, uint16, uint16, 8 raw bytes}` and renders hyphenated hex groups
of widths 8-4-4-4-12, where the fourth group is the hex encoding of the
first 2 of the 8 raw bytes and the fifth group is the hex encoding of the
remaining 6 raw bytes (the 16 hex digits of the raw bytes split 4/12). -/
theorem guid_group_layout (r : List Nat) (h : r.length = 16) :
    decodeGuidStr r =
      String.mk (renderHexFixed 8 (leVal (r.take 4)) ++ '-' ::
        renderHexFixed 4 (leVal ((r.drop 4).take 2)) ++ '-' ::
        renderHexFixed 4 (leVal ((r.drop 6).take 2)) ++ '-' ::
        bytesHex ((r.drop 8).take 2) ++ '-' :: bytesHex ((r.drop 8).drop 2)) := by
  have hu : unpackIHH8s r =
      .ok (leVal (r.take 4), leVal ((r.drop 4).take 2),
           leVal ((r.drop 6).take 2), r.drop 8) := by
    simp [unpackIHH8s, h]
  rw [decodeGuidStr, hu]
  simp only [guidRender]
  have hsplit : r.drop 8 = (r.drop 8).take 2 ++ (r.drop 8).drop 2 :=
    (List.take_append_drop 2 (r.drop 8)).symm
  have hlen2 : (bytesHex ((r.drop 8).take 2)).length = 4 := by
    rw [bytesHex_length]
    have : ((r.drop 8).take 2).length = 2 := by
      simp [List.length_take, List.length_drop, h]
    rw [this]
  have htk : (bytesHex (r.drop 8)).take 4 = bytesHex ((r.drop 8).take 2) := by
    conv_lhs => rw [hsplit, bytesHex_append]
    rw [← hlen2, List.take_left]
  have hdr : (bytesHex (r.drop 8)).drop 4 = bytesHex ((r.drop 8).drop 2) := by
    conv_lhs => rw [hsplit, bytesHex_append]
    rw [← hlen2, List.drop_left]
  rw [htk, hdr]

/-- Witness for the amended C8 at the concrete region `regionSplit16`. -/
theorem guid_group_layout_witness :
    regionSplit16.length = 16 ∧
    decodeGuidStr regionSplit16 =
      String.mk (renderHexFixed 8 (leVal (regionSplit16.take 4)) ++ '-' ::
        renderHexFixed 4 (leVal ((regionSplit16.drop 4).take 2)) ++ '-' ::
        renderHexFixed 4 (leVal ((regionSplit16.drop 6).take 2)) ++ '-' ::
        bytesHex ((regionSplit16.drop 8).take 2) ++ '-' ::
        bytesHex ((regionSplit16.drop 8).drop 2)) :=
  ⟨by decide, guid_group_layout regionSplit16 (by decide)⟩

end BystronicOpc
